import Mathlib

/-!
Shallow embedding of `src/sforgs.py` (SF Orgs, a terminal UI for Salesforce
org management), covering the data pipeline (`get_org_type`, `parse_orgs`),
the CLI command builders (`reauth_org`), and the pure decision logic of the
app actions (`action_open_org`, `action_reauth`, `on_search_changed`,
`load_orgs`).

Modelling conventions:
* A raw JSON org record is a structure of `Option` fields: `none` models a
  missing key, mirroring Python's `dict.get` with a default.
* Python truthiness of `org.get(k)` on a boolean-valued key is `Option.getD
  false`.
* Python's `list.sort(key=...)` is a stable sort by the key tuple
  `(not is_connected, alias.lower())`; tuples compare lexicographically with
  `False < True` and strings code-point-lexicographically.  We model it with
  `List.insertionSort`, which is stable and sorts by the same total
  preorder, hence produces the identical output list.
* Exceptions raised by the fetch (`FileNotFoundError`, `TimeoutExpired`,
  JSON decode errors, ...) are modelled with `Except`.
-/

/-- A raw org record from the SF CLI JSON output: a mapping in which every
recognized key may be absent (`none`). -/
structure RawOrg where
  username : Option String := none
  «alias» : Option String := none
  connectedStatus : Option String := none
  name : Option String := none
  instanceUrl : Option String := none
  isScratch : Option Bool := none
  isDevHub : Option Bool := none
  isSandbox : Option Bool := none
  isDefaultUsername : Option Bool := none
deriving DecidableEq

/-- A normalized org entry, as built by the loop body of `parse_orgs`
(src/sforgs.py lines 107-118): every field is present. -/
structure Org where
  «alias» : String
  username : String
  type : String
  name : String
  status : String
  is_connected : Bool
  instance_url : String
  is_default : Bool
  is_dev_hub : Bool
  is_sandbox : Bool
deriving DecidableEq

/-- Python truthiness of `org.get(key)` for a boolean-valued key. -/
def truthy (b : Option Bool) : Bool := b.getD false

/-- Embeds `get_org_type` (src/sforgs.py lines 75-83). -/
def get_org_type (org : RawOrg) : String :=
  if truthy org.isScratch then "Scratch"
  else if truthy org.isDevHub then "Dev Hub"
  else if truthy org.isSandbox then "Sandbox"
  else "Production"

/-- The normalization performed by the loop body of `parse_orgs`
(src/sforgs.py lines 102-118): defaults for missing keys, derived
`is_connected` and `type`. -/
def normalize_org (org : RawOrg) : Org :=
  let status := org.connectedStatus.getD "Unknown"
  { «alias» := org.«alias».getD "-"
    username := org.username.getD ""
    type := get_org_type org
    name := org.name.getD "-"
    status := status
    is_connected := status == "Connected"
    instance_url := org.instanceUrl.getD ""
    is_default := truthy org.isDefaultUsername
    is_dev_hub := truthy org.isDevHub
    is_sandbox := truthy org.isSandbox }

/-- The deduplication key: `org.get("username", "")` (src/sforgs.py line 97). -/
def raw_key (org : RawOrg) : String := org.username.getD ""

/-- The dedup-and-normalize loop of `parse_orgs` (src/sforgs.py lines
96-118); `seen` models the `seen` set of usernames. -/
def dedup_orgs : List RawOrg → List String → List Org
  | [], _ => []
  | org :: rest, seen =>
    if raw_key org ∈ seen then dedup_orgs rest seen
    else normalize_org org :: dedup_orgs rest (raw_key org :: seen)

/-- Python `str.lower()` (on the ASCII strings this program handles):
lowercases each character. -/
def lower (s : String) : String := String.mk (s.data.map Char.toLower)

/-- The sort key of src/sforgs.py line 120:
`(not x["is_connected"], x["alias"].lower())`, compared lexicographically
(Python tuple order, `False < True`, strings by code point). -/
def sort_key (o : Org) : Bool ×ₗ List Char :=
  toLex (!o.is_connected, (lower o.«alias»).data)

/-- The total preorder on entries induced by `sort_key`. -/
def org_le (a b : Org) : Prop := sort_key a ≤ sort_key b

instance : DecidableRel org_le :=
  fun a b => inferInstanceAs (Decidable (sort_key a ≤ sort_key b))

/-- Python's `list.sort` (stable, by `sort_key`), modelled by the stable
`List.insertionSort` over the same total preorder. -/
def sort_orgs (l : List Org) : List Org := l.insertionSort org_le

/-- The `result` object of the SF CLI listing JSON: both org arrays may be
absent (`org_data.get(key, [])`). -/
structure OrgData where
  nonScratchOrgs : Option (List RawOrg) := none
  scratchOrgs : Option (List RawOrg) := none
deriving DecidableEq

/-- The concatenation `nonScratchOrgs + scratchOrgs` of src/sforgs.py
lines 91-94. -/
def all_orgs (org_data : OrgData) : List RawOrg :=
  org_data.nonScratchOrgs.getD [] ++ org_data.scratchOrgs.getD []

/-- Embeds `parse_orgs` (src/sforgs.py lines 86-121). -/
def parse_orgs (org_data : OrgData) : List Org :=
  sort_orgs (dedup_orgs (all_orgs org_data) [])

/-- The login URL choice of `reauth_org` (src/sforgs.py line 58). -/
def reauth_login_url (is_sandbox : Bool) : String :=
  if is_sandbox then "test.salesforce.com" else "login.salesforce.com"

/-- The base command of `reauth_org` (src/sforgs.py line 59). -/
def reauth_base (is_sandbox : Bool) : List String :=
  ["sf", "org", "login", "web", "-r", "https://" ++ reauth_login_url is_sandbox]

/-- Embeds the command built by `reauth_org` (src/sforgs.py lines 56-62):
the `-a` flag is appended when `alias_or_username` is truthy (nonempty)
and is not `"-"`. -/
def reauth_cmd (alias_or_username : String) (is_sandbox : Bool) : List String :=
  if alias_or_username ≠ "" ∧ alias_or_username ≠ "-" then
    reauth_base is_sandbox ++ ["-a", alias_or_username]
  else
    reauth_base is_sandbox

/-- The identity expression shared by `action_open_org` (line 381) and
`action_reauth` (line 402): `org["alias"] if org["alias"] != "-" else
org["username"]`. -/
def invocation_identity (org : Org) : String :=
  if org.«alias» ≠ "-" then org.«alias» else org.username

/-- Outcome of triggering the Open action on a selected org: either a
"session expired" warning with an early return, or an `sf org open`
invocation with the resolved identity. -/
inductive OpenOutcome where
  | warnExpired : OpenOutcome
  | runOpen : String → OpenOutcome
deriving DecidableEq

/-- Embeds `SFOrgsApp.action_open_org` (src/sforgs.py lines 370-383) for a
selected org: a disconnected org produces only the warning and the method
returns; otherwise the open command is run with the resolved identity. -/
def action_open_org (org : Org) : OpenOutcome :=
  if !org.is_connected then OpenOutcome.warnExpired
  else OpenOutcome.runOpen (if org.«alias» ≠ "-" then org.«alias» else org.username)

/-- Embeds `SFOrgsApp.action_reauth` (src/sforgs.py lines 395-404) for a
selected org: the full `sf org login web` command eventually executed by
`reauth_org`, with the resolved identity and the org's raw sandbox flag. -/
def action_reauth_cmd (org : Org) : List String :=
  reauth_cmd (if org.«alias» ≠ "-" then org.«alias» else org.username) org.is_sandbox

/-- The exceptions `get_sf_orgs` can raise, as caught by `load_orgs`:
`FileNotFoundError` (sf missing), `subprocess.TimeoutExpired`, JSON decode
errors and any other `Exception`. -/
inductive FetchError where
  | fileNotFound : FetchError
  | timeoutExpired : FetchError
  | jsonDecodeError : FetchError
  | otherException : FetchError
deriving DecidableEq

/-- Embeds `SFOrgsApp.load_orgs` (src/sforgs.py lines 286-295): the fetch
either yields the parsed `result` data or raises; `FileNotFoundError` and
every other `Exception` are caught and turned into `[]`. -/
def load_orgs (fetch_result : Except FetchError OrgData) : List Org :=
  match fetch_result with
  | Except.ok org_data => parse_orgs org_data
  | Except.error FetchError.fileNotFound => []
  | Except.error _ => []

/-- Whether `needle` starts `hay` (character lists). -/
def chars_starts : List Char → List Char → Bool
  | [], _ => true
  | _ :: _, [] => false
  | a :: as, b :: bs => a == b && chars_starts as bs

/-- Whether `needle` occurs as a contiguous substring of the second list:
Python's `needle in hay` on strings. -/
def chars_contains (needle : List Char) : List Char → Bool
  | [] => needle.isEmpty
  | c :: rest => chars_starts needle (c :: rest) || chars_contains needle rest

/-- Python `needle in hay` for strings. -/
def str_has_sub (needle hay : String) : Bool :=
  chars_contains needle.data hay.data

/-- The membership test of the list comprehension in `on_search_changed`
(src/sforgs.py lines 455-461); `q` is the already-lowercased query. -/
def matches_query (q : String) (org : Org) : Bool :=
  str_has_sub q (lower org.«alias») || str_has_sub q (lower org.username) ||
  str_has_sub q (lower org.type) || str_has_sub q (lower org.name)

/-- Embeds `SFOrgsApp.on_search_changed` (src/sforgs.py lines 448-462):
the new `filtered_orgs` computed from the canonical list `orgs` and the
raw input `value`. -/
def filter_orgs (value : String) (orgs : List Org) : List Org :=
  let q := lower value
  if q = "" then orgs else orgs.filter (fun org => matches_query q org)

/-! Helper lemmas about the sort: `org_le` is a total preorder, the sort is
a permutation, it sorts, and it is stable (key-filter invariance). -/

instance : IsTotal Org org_le :=
  ⟨fun a b => le_total (sort_key a) (sort_key b)⟩

instance : IsTrans Org org_le :=
  ⟨fun _ _ _ hab hbc => le_trans hab hbc⟩

theorem sort_orgs_perm (l : List Org) : List.Perm (sort_orgs l) l :=
  List.perm_insertionSort org_le l

theorem mem_sort_orgs {o : Org} {l : List Org} : o ∈ sort_orgs l ↔ o ∈ l :=
  (sort_orgs_perm l).mem_iff

theorem sort_orgs_sorted (l : List Org) : List.Sorted org_le (sort_orgs l) :=
  List.sorted_insertionSort org_le l

theorem sort_key_ne_of_not_le {x y : Org} (h : ¬ org_le x y) :
    sort_key y ≠ sort_key x :=
  fun he => h (le_of_eq he.symm)

theorem filter_key_orderedInsert (x : Org) (l : List Org) (k : Bool ×ₗ List Char) :
    (List.orderedInsert org_le x l).filter (fun o => decide (sort_key o = k)) =
      if sort_key x = k then x :: l.filter (fun o => decide (sort_key o = k))
      else l.filter (fun o => decide (sort_key o = k)) := by
  induction l with
  | nil =>
    simp only [List.orderedInsert, List.filter_cons, List.filter_nil]
    by_cases hk : sort_key x = k <;> simp [hk]
  | cons y ys ih =>
    by_cases hxy : org_le x y
    · rw [List.orderedInsert, if_pos hxy]
      by_cases hk : sort_key x = k <;> simp [List.filter_cons, hk]
    · rw [List.orderedInsert, if_neg hxy]
      have hyx : sort_key y ≠ sort_key x := sort_key_ne_of_not_le hxy
      by_cases hk : sort_key x = k
      · have hyk : sort_key y ≠ k := hk ▸ hyx
        simp [List.filter_cons, hyk, ih, hk]
      · by_cases hyk : sort_key y = k <;>
          simp [List.filter_cons, hyk, ih, hk]

theorem filter_key_sort_orgs (l : List Org) (k : Bool ×ₗ List Char) :
    (sort_orgs l).filter (fun o => decide (sort_key o = k)) =
      l.filter (fun o => decide (sort_key o = k)) := by
  induction l with
  | nil => rfl
  | cons x xs ih =>
    show (List.orderedInsert org_le x (sort_orgs xs)).filter _ = _
    rw [filter_key_orderedInsert, ih]
    by_cases hk : sort_key x = k <;> simp [List.filter_cons, hk]

/-! Helper lemmas about deduplication. -/

theorem normalize_org_username (r : RawOrg) :
    (normalize_org r).username = raw_key r := rfl

theorem mem_dedup_orgs {o : Org} :
    ∀ {l : List RawOrg} {seen : List String}, o ∈ dedup_orgs l seen →
      o.username ∉ seen ∧
      ∃ r, l.find? (fun x => raw_key x == o.username) = some r ∧
        normalize_org r = o := by
  intro l
  induction l with
  | nil => intro seen h; simp [dedup_orgs] at h
  | cons r0 rest ih =>
    intro seen h
    by_cases h0 : raw_key r0 ∈ seen
    · rw [dedup_orgs, if_pos h0] at h
      obtain ⟨hns, r, hfind, hnorm⟩ := ih h
      have hne : (raw_key r0 == o.username) = false := by
        rw [beq_eq_false_iff_ne]
        intro he
        exact hns (he ▸ h0)
      exact ⟨hns, r, by rw [List.find?_cons_of_neg _ (by simp [hne]), hfind], hnorm⟩
    · rw [dedup_orgs, if_neg h0] at h
      rcases List.mem_cons.mp h with rfl | htail
      · refine ⟨h0, r0, ?_, rfl⟩
        exact List.find?_cons_of_pos _ (by simp [normalize_org_username])
      · obtain ⟨hns, r, hfind, hnorm⟩ := ih htail
        have hne0 : o.username ≠ raw_key r0 := by
          intro he
          exact hns (he ▸ List.mem_cons_self _ _)
        refine ⟨fun hs => hns (List.mem_cons_of_mem _ hs), r, ?_, hnorm⟩
        rw [List.find?_cons_of_neg _ (by simp [hne0.symm]), hfind]

theorem dedup_orgs_username_nodup :
    ∀ (l : List RawOrg) (seen : List String),
      ((dedup_orgs l seen).map Org.username).Nodup := by
  intro l
  induction l with
  | nil => intro seen; simp [dedup_orgs]
  | cons r0 rest ih =>
    intro seen
    by_cases h0 : raw_key r0 ∈ seen
    · rw [dedup_orgs, if_pos h0]; exact ih seen
    · rw [dedup_orgs, if_neg h0]
      simp only [List.map_cons, List.nodup_cons]
      refine ⟨?_, ih _⟩
      intro hmem
      obtain ⟨o, ho, heq⟩ := List.mem_map.mp hmem
      have hns := (mem_dedup_orgs ho).1
      rw [heq, normalize_org_username] at hns
      exact hns (List.mem_cons_self _ _)

theorem dedup_orgs_covers {r : RawOrg} :
    ∀ {l : List RawOrg} {seen : List String}, r ∈ l →
      raw_key r ∈ seen ∨ ∃ o ∈ dedup_orgs l seen, o.username = raw_key r := by
  intro l
  induction l with
  | nil => intro seen h; simp at h
  | cons r0 rest ih =>
    intro seen h
    rcases List.mem_cons.mp h with rfl | htail
    · by_cases h0 : raw_key r ∈ seen
      · exact Or.inl h0
      · refine Or.inr ⟨normalize_org r, ?_, normalize_org_username r⟩
        rw [dedup_orgs, if_neg h0]
        exact List.mem_cons_self _ _
    · by_cases h0 : raw_key r0 ∈ seen
      · rw [dedup_orgs, if_pos h0]
        exact ih htail
      · rw [dedup_orgs, if_neg h0]
        rcases @ih (raw_key r0 :: seen) htail with hs | ⟨o, ho, hu⟩
        · rcases List.mem_cons.mp hs with he | hs
          · exact Or.inr ⟨normalize_org r0, List.mem_cons_self _ _,
              (normalize_org_username r0).trans he.symm⟩
          · exact Or.inl hs
        · exact Or.inr ⟨o, List.mem_cons_of_mem _ ho, hu⟩

theorem parse_orgs_username_nodup (d : OrgData) :
    ((parse_orgs d).map Org.username).Nodup :=
  (((sort_orgs_perm (dedup_orgs (all_orgs d) [])).map Org.username).symm).nodup
    (dedup_orgs_username_nodup (all_orgs d) [])

theorem nodup_const_length_le {l : List String} (hn : l.Nodup) (s : String)
    (h : ∀ x ∈ l, x = s) : l.length ≤ 1 := by
  match l with
  | [] => simp
  | [x] => simp
  | x :: y :: rest =>
    exfalso
    have hx := h x (by simp)
    have hy := h y (by simp)
    rw [List.nodup_cons] at hn
    exact hn.1 (by simp [hx, hy])

/-! Field-level reductions of `normalize_org` (all definitional). -/

theorem normalize_org_alias (r : RawOrg) :
    (normalize_org r).«alias» = r.«alias».getD "-" := rfl

theorem normalize_org_type (r : RawOrg) :
    (normalize_org r).type = get_org_type r := rfl

theorem normalize_org_status (r : RawOrg) :
    (normalize_org r).status = r.connectedStatus.getD "Unknown" := rfl

theorem normalize_org_is_connected (r : RawOrg) :
    (normalize_org r).is_connected =
      (r.connectedStatus.getD "Unknown" == "Connected") := rfl

theorem normalize_org_name (r : RawOrg) :
    (normalize_org r).name = r.name.getD "-" := rfl

theorem normalize_org_instance_url (r : RawOrg) :
    (normalize_org r).instance_url = r.instanceUrl.getD "" := rfl

theorem normalize_org_is_default (r : RawOrg) :
    (normalize_org r).is_default = truthy r.isDefaultUsername := rfl

theorem normalize_org_is_dev_hub (r : RawOrg) :
    (normalize_org r).is_dev_hub = truthy r.isDevHub := rfl

theorem normalize_org_is_sandbox (r : RawOrg) :
    (normalize_org r).is_sandbox = truthy r.isSandbox := rfl

theorem get_org_type_eq_sandbox {r : RawOrg} (h : get_org_type r = "Sandbox") :
    truthy r.isSandbox = true := by
  by_cases h1 : truthy r.isScratch = true
  · simp [get_org_type, h1] at h
  · by_cases h2 : truthy r.isDevHub = true
    · simp [get_org_type, h1, h2] at h
    · by_cases h3 : truthy r.isSandbox = true
      · exact h3
      · simp [get_org_type, h1, h2, h3] at h

theorem reauth_cmd_get5 (a : String) (b : Bool) :
    (reauth_cmd a b).get? 5 = some ("https://" ++ reauth_login_url b) := by
  rw [reauth_cmd]
  split <;> rfl

theorem action_reauth_get5 (org : Org) :
    (action_reauth_cmd org).get? 5 =
      some ("https://" ++ reauth_login_url org.is_sandbox) := by
  simp only [action_reauth_cmd, reauth_cmd_get5]

/-! Concrete orgs and data used by individual claims. -/

def c1raw : RawOrg :=
  { username := some "scratch@example.com", isScratch := some true,
    isSandbox := some true }

def c2org : Org :=
  { «alias» := "-", username := "user@example.com", type := "Production",
    name := "-", status := "Unknown", is_connected := false,
    instance_url := "", is_default := false, is_dev_hub := false,
    is_sandbox := false }

def c2org_empty : Org :=
  { «alias» := "", username := "user@example.com", type := "Production",
    name := "-", status := "Unknown", is_connected := false,
    instance_url := "", is_default := false, is_dev_hub := false,
    is_sandbox := false }

/-- C1, counterexample: a raw record with both `isScratch` and `isSandbox`
set derives type `Scratch`, yet Reauth sends it to the sandbox login
endpoint `https://test.salesforce.com` — the claim says any non-Sandbox
type (in particular Scratch) goes to the production endpoint. -/
theorem C1_counterexample :
    (normalize_org c1raw).type = "Scratch" ∧
    (action_reauth_cmd (normalize_org c1raw)).get? 5 =
      some "https://test.salesforce.com" := by decide

/-- C1, amended: the Reauth login endpoint is chosen by the org's raw
`isSandbox` flag, not by the derived type: the command's URL argument is
the sandbox endpoint exactly when the flag is truthy.  A derived type of
`Sandbox` does imply the sandbox endpoint, but so do Scratch or Dev Hub
orgs whose raw `isSandbox` flag is set; the production endpoint is used
exactly when the flag is not truthy. -/
theorem C1_reauth_endpoint (r : RawOrg) :
    ((action_reauth_cmd (normalize_org r)).get? 5 =
        some (if truthy r.isSandbox then "https://test.salesforce.com"
              else "https://login.salesforce.com")) ∧
    ((normalize_org r).type = "Sandbox" →
        (action_reauth_cmd (normalize_org r)).get? 5 =
          some "https://test.salesforce.com") ∧
    (truthy r.isSandbox = false →
        (action_reauth_cmd (normalize_org r)).get? 5 =
          some "https://login.salesforce.com") := by
  have hbase : (action_reauth_cmd (normalize_org r)).get? 5 =
      some ("https://" ++ reauth_login_url (truthy r.isSandbox)) := by
    rw [action_reauth_get5, normalize_org_is_sandbox]
  refine ⟨?_, ?_, ?_⟩
  · rw [hbase]
    cases hs : truthy r.isSandbox <;> rfl
  · intro h
    have hs : truthy r.isSandbox = true :=
      get_org_type_eq_sandbox ((normalize_org_type r) ▸ h)
    rw [hbase, hs]
    rfl
  · intro hs
    rw [hbase, hs]
    rfl

/-- C1 witness: evaluates the amended theorem on a concrete sandbox org. -/
theorem C1_witness :
    (action_reauth_cmd (normalize_org { isSandbox := some true })).get? 5 =
      some "https://test.salesforce.com" ∧
    (action_reauth_cmd (normalize_org { isDevHub := some true })).get? 5 =
      some "https://login.salesforce.com" :=
  ⟨(C1_reauth_endpoint { isSandbox := some true }).2.1 (by decide),
   (C1_reauth_endpoint { isDevHub := some true }).2.2 (by decide)⟩

/-- C2, counterexample: for an org whose alias is the sentinel `"-"` (and
whose username is nonempty), Reauth does include an alias-to-assign
argument: `-a` followed by the username — the claim says no alias argument
is included when the alias is the sentinel. -/
theorem C2_counterexample :
    c2org.«alias» = "-" ∧
    action_reauth_cmd c2org =
      ["sf", "org", "login", "web", "-r", "https://login.salesforce.com",
       "-a", "user@example.com"] := by decide

/-- C2, amended: the Reauth invocation includes the `-a` flag iff the
resolved invocation identity (the alias when it is not `"-"`, otherwise
the username) is nonempty and differs from `"-"`, and the value passed is
that identity.  For a sentinel-alias org the identity is the username, so
`-a <username>` is passed whenever the username is nonempty. -/
theorem C2_reauth_alias_flag (org : Org) :
    (invocation_identity org ≠ "" → invocation_identity org ≠ "-" →
        action_reauth_cmd org =
          reauth_base org.is_sandbox ++ ["-a", invocation_identity org]) ∧
    (invocation_identity org = "" ∨ invocation_identity org = "-" →
        action_reauth_cmd org = reauth_base org.is_sandbox) ∧
    (org.«alias» = "-" → invocation_identity org = org.username) := by
  have hid : action_reauth_cmd org =
      reauth_cmd (invocation_identity org) org.is_sandbox := rfl
  refine ⟨?_, ?_, ?_⟩
  · intro h1 h2
    rw [hid, reauth_cmd, if_pos ⟨h1, h2⟩]
  · intro h
    rw [hid, reauth_cmd, if_neg]
    rintro ⟨hne, hnd⟩
    rcases h with h | h
    · exact hne h
    · exact hnd h
  · intro h
    rw [invocation_identity, if_neg (by simp [h])]

/-- C2 witness: evaluates the amended theorem on a sentinel-alias org with
a nonempty username and on an org with an empty alias. -/
theorem C2_witness :
    action_reauth_cmd c2org =
      reauth_base c2org.is_sandbox ++ ["-a", invocation_identity c2org] ∧
    action_reauth_cmd c2org_empty = reauth_base c2org_empty.is_sandbox ∧
    invocation_identity c2org = c2org.username :=
  ⟨(C2_reauth_alias_flag c2org).1 (by decide) (by decide),
   (C2_reauth_alias_flag c2org_empty).2.1 (Or.inl (by decide)),
   (C2_reauth_alias_flag c2org).2.2 rfl⟩

def c7sentinel : Org :=
  { «alias» := "-", username := "plain@example.com", type := "Production",
    name := "-", status := "Connected", is_connected := true,
    instance_url := "", is_default := false, is_dev_hub := false,
    is_sandbox := false }

def c7aliased : Org :=
  { «alias» := "prod", username := "plain@example.com", type := "Production",
    name := "-", status := "Connected", is_connected := true,
    instance_url := "", is_default := false, is_dev_hub := false,
    is_sandbox := false }

/-- C7 (confirmed): both Open and Reauth resolve the invocation identity
to the username when the alias equals the sentinel `"-"`, and to the alias
itself otherwise; Open (on a connected org) invokes the open command with
that identity and Reauth builds its login command from it. -/
theorem C7_invocation_identity (org : Org) :
    (org.«alias» = "-" → invocation_identity org = org.username) ∧
    (org.«alias» ≠ "-" → invocation_identity org = org.«alias») ∧
    (org.is_connected = true →
        action_open_org org = OpenOutcome.runOpen (invocation_identity org)) ∧
    (action_reauth_cmd org =
        reauth_cmd (invocation_identity org) org.is_sandbox) := by
  refine ⟨?_, ?_, ?_, rfl⟩
  · intro h
    rw [invocation_identity, if_neg (by simp [h])]
  · intro h
    rw [invocation_identity, if_pos h]
  · intro h
    simp [action_open_org, h, invocation_identity]

/-- C7 witness: evaluates the theorem on a sentinel-alias org and on an
aliased org. -/
theorem C7_witness :
    invocation_identity c7sentinel = c7sentinel.username ∧
    invocation_identity c7aliased = c7aliased.«alias» ∧
    action_open_org c7aliased =
      OpenOutcome.runOpen (invocation_identity c7aliased) :=
  ⟨(C7_invocation_identity c7sentinel).1 rfl,
   (C7_invocation_identity c7aliased).2.1 (by decide),
   (C7_invocation_identity c7aliased).2.2.1 rfl⟩

/-- C8 (confirmed): in the interactive variant, every fetch failure —
tool missing (`FileNotFoundError`), timeout, JSON decode failure, or any
other exception — is caught by `load_orgs` and yields the empty canonical
list instead of propagating. -/
theorem C8_load_orgs_failure_empty (e : FetchError) :
    load_orgs (Except.error e) = [] := by
  cases e <;> rfl

def c9expired : Org :=
  { «alias» := "stale", username := "stale@example.com", type := "Production",
    name := "-", status := "Expired", is_connected := false,
    instance_url := "", is_default := false, is_dev_hub := false,
    is_sandbox := false }

def c9live : Org :=
  { «alias» := "live", username := "live@example.com", type := "Production",
    name := "-", status := "Connected", is_connected := true,
    instance_url := "", is_default := false, is_dev_hub := false,
    is_sandbox := false }

/-- C9, counterexample: triggering Open on a selected org whose
`is_connected` is false produces only the session-expired warning — the
`warnExpired` outcome, not a `runOpen` invocation — so the action does not
proceed with a warning, it is blocked after warning. -/
theorem C9_counterexample :
    c9expired.is_connected = false ∧
    action_open_org c9expired = OpenOutcome.warnExpired := by decide

/-- C9, amended: expired entries remain selectable and triggering Open on
them is permitted, but it does not proceed to an open invocation: the
handler emits a "session expired" warning and returns.  Only a connected
org proceeds to the open command with the resolved identity. -/
theorem C9_open_expired_warns (org : Org) :
    (org.is_connected = false →
        action_open_org org = OpenOutcome.warnExpired) ∧
    (org.is_connected = true →
        action_open_org org = OpenOutcome.runOpen (invocation_identity org)) := by
  constructor
  · intro h
    simp [action_open_org, h]
  · intro h
    simp [action_open_org, h, invocation_identity]

/-- C9 witness: evaluates the amended theorem on an expired org and on a
connected org. -/
theorem C9_witness :
    action_open_org c9expired = OpenOutcome.warnExpired ∧
    action_open_org c9live = OpenOutcome.runOpen (invocation_identity c9live) :=
  ⟨(C9_open_expired_warns c9expired).1 rfl,
   (C9_open_expired_warns c9live).2 rfl⟩

/-- C5 (confirmed): normalization is total — every field of the output is
populated, with the documented defaults for missing keys; `is_connected`
holds iff the status string is exactly "Connected"; and the derived type
follows the priority Scratch > Dev Hub > Sandbox > Production. -/
theorem C5_normalization_total (r : RawOrg) :
    (r.«alias» = none → (normalize_org r).«alias» = "-") ∧
    (r.username = none → (normalize_org r).username = "") ∧
    (r.connectedStatus = none → (normalize_org r).status = "Unknown") ∧
    (r.name = none → (normalize_org r).name = "-") ∧
    (r.instanceUrl = none → (normalize_org r).instance_url = "") ∧
    (r.isDefaultUsername = none → (normalize_org r).is_default = false) ∧
    (r.isDevHub = none → (normalize_org r).is_dev_hub = false) ∧
    (r.isSandbox = none → (normalize_org r).is_sandbox = false) ∧
    ((normalize_org r).is_connected = true ↔
        (normalize_org r).status = "Connected") ∧
    (truthy r.isScratch = true → (normalize_org r).type = "Scratch") ∧
    (truthy r.isScratch = false → truthy r.isDevHub = true →
        (normalize_org r).type = "Dev Hub") ∧
    (truthy r.isScratch = false → truthy r.isDevHub = false →
        truthy r.isSandbox = true → (normalize_org r).type = "Sandbox") ∧
    (truthy r.isScratch = false → truthy r.isDevHub = false →
        truthy r.isSandbox = false → (normalize_org r).type = "Production") := by
  refine ⟨?_, ?_, ?_, ?_, ?_, ?_, ?_, ?_, ?_, ?_, ?_, ?_, ?_⟩
  · intro h; rw [normalize_org_alias, h]; rfl
  · intro h; rw [normalize_org_username, raw_key, h]; rfl
  · intro h; rw [normalize_org_status, h]; rfl
  · intro h; rw [normalize_org_name, h]; rfl
  · intro h; rw [normalize_org_instance_url, h]; rfl
  · intro h; rw [normalize_org_is_default, truthy, h]; rfl
  · intro h; rw [normalize_org_is_dev_hub, truthy, h]; rfl
  · intro h; rw [normalize_org_is_sandbox, truthy, h]; rfl
  · rw [normalize_org_is_connected, normalize_org_status]
    exact beq_iff_eq
  · intro h1; rw [normalize_org_type]; simp [get_org_type, h1]
  · intro h1 h2; rw [normalize_org_type]; simp [get_org_type, h1, h2]
  · intro h1 h2 h3; rw [normalize_org_type]; simp [get_org_type, h1, h2, h3]
  · intro h1 h2 h3; rw [normalize_org_type]; simp [get_org_type, h1, h2, h3]

/-- C5 witness: evaluates the theorem on the fully-empty record (all
defaults) and on multi-flag records (type priority). -/
theorem C5_witness :
    (normalize_org {}).«alias» = "-" ∧
    (normalize_org {}).username = "" ∧
    (normalize_org {}).status = "Unknown" ∧
    (normalize_org {}).name = "-" ∧
    (normalize_org {}).instance_url = "" ∧
    (normalize_org {}).is_default = false ∧
    (normalize_org {}).is_dev_hub = false ∧
    (normalize_org {}).is_sandbox = false ∧
    (normalize_org { isScratch := some true, isSandbox := some true }).type
      = "Scratch" ∧
    (normalize_org { isDevHub := some true, isSandbox := some true }).type
      = "Dev Hub" ∧
    (normalize_org { isSandbox := some true }).type = "Sandbox" ∧
    (normalize_org {}).type = "Production" :=
  ⟨(C5_normalization_total {}).1 rfl,
   (C5_normalization_total {}).2.1 rfl,
   (C5_normalization_total {}).2.2.1 rfl,
   (C5_normalization_total {}).2.2.2.1 rfl,
   (C5_normalization_total {}).2.2.2.2.1 rfl,
   (C5_normalization_total {}).2.2.2.2.2.1 rfl,
   (C5_normalization_total {}).2.2.2.2.2.2.1 rfl,
   (C5_normalization_total {}).2.2.2.2.2.2.2.1 rfl,
   (C5_normalization_total
      { isScratch := some true, isSandbox := some true }).2.2.2.2.2.2.2.2.2.1
      (by decide),
   (C5_normalization_total
      { isDevHub := some true, isSandbox := some true }).2.2.2.2.2.2.2.2.2.2.1
      (by decide) (by decide),
   (C5_normalization_total
      { isSandbox := some true }).2.2.2.2.2.2.2.2.2.2.2.1
      (by decide) (by decide) (by decide),
   (C5_normalization_total {}).2.2.2.2.2.2.2.2.2.2.2.2
      (by decide) (by decide) (by decide)⟩

theorem lower_eq_empty_iff (s : String) : lower s = "" ↔ s = "" := by
  constructor
  · intro h
    have hd : s.data.map Char.toLower = ([] : List Char) :=
      congrArg String.data h
    have hnil : s.data = [] := List.map_eq_nil_iff.mp hd
    cases s
    simp_all
  · intro h
    rw [h]
    rfl

def c6orgs : List Org :=
  [{ «alias» := "acme-prod", username := "p@acme.com", type := "Production",
     name := "Acme Prod", status := "Connected", is_connected := true,
     instance_url := "", is_default := false, is_dev_hub := false,
     is_sandbox := false },
   { «alias» := "acme-sandbox", username := "s@acme.com", type := "Sandbox",
     name := "Acme Sandbox", status := "Connected", is_connected := true,
     instance_url := "", is_default := false, is_dev_hub := false,
     is_sandbox := true },
   { «alias» := "other", username := "o@other.com", type := "Production",
     name := "Other", status := "Connected", is_connected := true,
     instance_url := "", is_default := false, is_dev_hub := false,
     is_sandbox := false }]

/-- C6 (confirmed): an empty query leaves the canonical list unchanged; a
non-empty query keeps exactly the records whose lowercased alias,
username, type label or name contains the lowercased query as a substring,
in canonical order (the filtered view is a sublist); and the match
predicate consults no field other than those four. -/
theorem C6_filter_engine (value : String) (orgs : List Org) :
    (value = "" → filter_orgs value orgs = orgs) ∧
    (value ≠ "" →
      (filter_orgs value orgs).Sublist orgs ∧
      (∀ o, o ∈ filter_orgs value orgs ↔
          o ∈ orgs ∧ matches_query (lower value) o = true)) ∧
    (∀ o o' : Org, o.«alias» = o'.«alias» → o.username = o'.username →
        o.type = o'.type → o.name = o'.name →
        matches_query (lower value) o = matches_query (lower value) o') := by
  refine ⟨?_, ?_, ?_⟩
  · intro h
    rw [h]
    rfl
  · intro hv
    have hq : lower value ≠ "" := fun h => hv ((lower_eq_empty_iff value).mp h)
    have hfe : filter_orgs value orgs =
        orgs.filter (fun org => matches_query (lower value) org) := by
      simp only [filter_orgs, if_neg hq]
    constructor
    · rw [hfe]
      exact List.filter_sublist orgs
    · intro o
      rw [hfe]
      exact List.mem_filter
  · intro o o' h1 h2 h3 h4
    simp only [matches_query, h1, h2, h3, h4]

/-- C6 witness: evaluates the theorem on the spec's example — the query
"acme" against aliases ["acme-prod", "acme-sandbox", "other"] — and on
the empty query. -/
theorem C6_witness :
    filter_orgs "" c6orgs = c6orgs ∧
    (filter_orgs "acme" c6orgs).Sublist c6orgs ∧
    ((c6orgs.get ⟨0, by decide⟩) ∈ filter_orgs "acme" c6orgs ↔
        (c6orgs.get ⟨0, by decide⟩) ∈ c6orgs ∧
        matches_query (lower "acme") (c6orgs.get ⟨0, by decide⟩) = true) :=
  ⟨(C6_filter_engine "" c6orgs).1 rfl,
   ((C6_filter_engine "acme" c6orgs).2.1 (by decide)).1,
   ((C6_filter_engine "acme" c6orgs).2.1 (by decide)).2 _⟩

def c3data : OrgData :=
  { nonScratchOrgs := some
      [{ username := some "dup@example.com", «alias» := some "first" }],
    scratchOrgs := some
      [{ username := some "dup@example.com", «alias» := some "second" },
       { username := some "solo@example.com" }] }

def c3first : RawOrg :=
  { username := some "dup@example.com", «alias» := some "first" }

/-- C3 (confirmed): the canonical list contains at most one entry per
username — the usernames of the output are pairwise distinct — and each
entry is the normalization of the first record, in concatenation order
(`nonScratchOrgs` then `scratchOrgs`), that carries its username key;
every input record's username key is represented, so all later duplicates
(even with different fields) are dropped. -/
theorem C3_dedup_first_wins (d : OrgData) :
    ((parse_orgs d).map Org.username).Nodup ∧
    (∀ o ∈ parse_orgs d,
        ∃ r, (all_orgs d).find? (fun x => raw_key x == o.username) = some r ∧
          normalize_org r = o) ∧
    (∀ r ∈ all_orgs d, ∃ o ∈ parse_orgs d, o.username = raw_key r) := by
  refine ⟨parse_orgs_username_nodup d, ?_, ?_⟩
  · intro o ho
    exact (mem_dedup_orgs (mem_sort_orgs.mp ho)).2
  · intro r hr
    rcases @dedup_orgs_covers r (all_orgs d) [] hr with hs | ⟨o, ho, hu⟩
    · simp at hs
    · exact ⟨o, mem_sort_orgs.mpr ho, hu⟩

/-- C3 witness: evaluates the theorem on data where both source lists
share the username "dup@example.com"; the survivor is the normalization of
the first record (alias "first"). -/
theorem C3_witness :
    (∃ r, (all_orgs c3data).find?
        (fun x => raw_key x == (normalize_org c3first).username) = some r ∧
        normalize_org r = normalize_org c3first) ∧
    (∃ o ∈ parse_orgs c3data, o.username = raw_key c3first) :=
  ⟨(C3_dedup_first_wins c3data).2.1 (normalize_org c3first) (by decide),
   (C3_dedup_first_wins c3data).2.2 c3first (by decide)⟩

theorem org_le_iff {a b : Org} :
    org_le a b ↔
      ((a.is_connected = true ∧ b.is_connected = false) ∨
       (a.is_connected = b.is_connected ∧
         (lower a.«alias»).data ≤ (lower b.«alias»).data)) := by
  show toLex (!a.is_connected, (lower a.«alias»).data) ≤
      toLex (!b.is_connected, (lower b.«alias»).data) ↔ _
  rw [Prod.Lex.le_iff]
  cases ha : a.is_connected <;> cases hb : b.is_connected <;>
    simp [Bool.lt_iff]

def c4data : OrgData :=
  { nonScratchOrgs := some
      [{ username := some "b@example.com", «alias» := some "Bravo" },
       { username := some "a@example.com", «alias» := some "alpha",
         connectedStatus := some "Connected" },
       { username := some "c@example.com", «alias» := some "Charlie" }] }

/-- C4 (confirmed): the canonical list is sorted by the total order
"`is_connected` descending, then lowercased alias ascending"; the sort is
stable — for every key value, the entries carrying that key appear in the
same order as in the deduplicated input sequence; and on the spec's
example (aliases ["Bravo", "alpha", "Charlie"], only "alpha" connected)
the output order is ["alpha", "Bravo", "Charlie"]. -/
theorem C4_sorted_stable :
    (∀ d : OrgData, (parse_orgs d).Pairwise (fun a b =>
        (a.is_connected = true ∧ b.is_connected = false) ∨
        (a.is_connected = b.is_connected ∧
          (lower a.«alias»).data ≤ (lower b.«alias»).data))) ∧
    (∀ (d : OrgData) (k : Bool ×ₗ List Char),
        (parse_orgs d).filter (fun o => decide (sort_key o = k)) =
          (dedup_orgs (all_orgs d) []).filter (fun o => decide (sort_key o = k))) ∧
    ((parse_orgs c4data).map Org.«alias» = ["alpha", "Bravo", "Charlie"]) := by
  refine ⟨?_, ?_, by decide⟩
  · intro d
    exact List.Pairwise.imp (fun h => org_le_iff.mp h)
      (sort_orgs_sorted (dedup_orgs (all_orgs d) []))
  · intro d k
    exact filter_key_sort_orgs _ k

def c10data : OrgData :=
  { nonScratchOrgs := some
      [{ username := some "", «alias» := some "A" },
       { «alias» := some "B" },
       { «alias» := some "C" }] }

def c10entry : Org := normalize_org { username := some "", «alias» := some "A" }

/-- C10, counterexample: with two records missing the username key (aliases
"B" and "C") preceded by a record whose username is explicitly the empty
string (alias "A"), the parsed output's single username-"" entry is the
normalization of the alias-"A" record — not the normalization of the first
username-less record, whose alias is "B" as the claim requires. -/
theorem C10_counterexample :
    (all_orgs c10data).countP (fun r => r.username.isNone) = 2 ∧
    ((parse_orgs c10data).filter (fun o => o.username == "")).map Org.«alias»
      = ["A"] ∧
    (normalize_org { «alias» := some "B" }).«alias» = "B" := by decide

/-- C10, amended: a record lacking the username key is keyed as the empty
string — the same key as a record whose username is explicitly "" — so the
output contains at most one entry with username "", and that entry is the
normalization of the first record in concatenation order whose username
key (after defaulting) is ""; all later such records, username-less or
explicitly empty, are dropped. -/
theorem C10_missing_username_key (d : OrgData) :
    (∀ r : RawOrg, r.username = none → raw_key r = "") ∧
    ((parse_orgs d).filter (fun o => o.username == "")).length ≤ 1 ∧
    (∀ o ∈ parse_orgs d, o.username = "" →
        ∃ r, (all_orgs d).find? (fun x => raw_key x == "") = some r ∧
          normalize_org r = o) := by
  refine ⟨fun r h => by rw [raw_key, h]; rfl, ?_, ?_⟩
  · have hnd := parse_orgs_username_nodup d
    have hsub : List.Sublist
        (((parse_orgs d).filter (fun o => o.username == "")).map Org.username)
        ((parse_orgs d).map Org.username) :=
      (List.filter_sublist _).map Org.username
    have hnd2 := hnd.sublist hsub
    have hlen : ((parse_orgs d).filter (fun o => o.username == "")).length =
        (((parse_orgs d).filter (fun o => o.username == "")).map
          Org.username).length := (List.length_map _ _).symm
    rw [hlen]
    refine nodup_const_length_le hnd2 "" ?_
    intro x hx
    obtain ⟨o, ho, rfl⟩ := List.mem_map.mp hx
    exact beq_iff_eq.mp (List.mem_filter.mp ho).2
  · intro o ho hu
    obtain ⟨-, r, hfind, hnorm⟩ := mem_dedup_orgs (mem_sort_orgs.mp ho)
    rw [hu] at hfind
    exact ⟨r, hfind, hnorm⟩

/-- C10 witness: evaluates the amended theorem on the counterexample data:
the record with alias "B" (no username key) is keyed "", and the single
username-"" entry of the output is the normalization of the alias-"A"
record, the first record keyed "". -/
theorem C10_witness :
    raw_key { «alias» := some "B" } = "" ∧
    (∃ r, (all_orgs c10data).find? (fun x => raw_key x == "") = some r ∧
        normalize_org r = c10entry) :=
  ⟨(C10_missing_username_key c10data).1 { «alias» := some "B" } rfl,
   (C10_missing_username_key c10data).2.2 c10entry (by decide) (by decide)⟩
